import Mathlib

set_option maxRecDepth 8000

/-! Verification of the aidman-scan Upload-Analyze-Report pipeline.

The definitions below are a shallow embedding of the repository's core:

* the Diagnosis Parser of `supabase/functions/analyze-blood-smear/index.ts`
  (lines 97-131): the brace-regex JSON extraction, `JSON.parse`, the
  falsy-default field reads, and the keyword/percent fallback branch;
* the Analysis Orchestrator of the same file (the `serve` handler): the
  upload read, the `processing` write, the single AI gateway call, the
  `completed` write and the report insert, with the thrown-error paths;
* the report layout loops of `src/pages/Reports.tsx` (lines 203-246):
  the per-line page-break layout and the deferred footer stamping.

Machine strings are Lean `String`s, JS numbers appearing in the parsed
payloads are integer-valued and modeled as `Int` (no claim exercises
fractional numbers), and JS exceptions are modeled with `Except`/`Option`.
-/

/-- The left-brace character, written by code to keep brace characters out
of string literals. -/
def lbrace : Char := Char.ofNat 123

/-- The right-brace character. -/
def rbrace : Char := Char.ofNat 125

/-- The double-quote character. -/
def dquote : Char := Char.ofNat 34

/-- The backslash character. -/
def bslash : Char := Char.ofNat 92

/-- JSON/JS whitespace recognized by the embedding (space, tab, newline,
carriage return); models both JSON inter-token whitespace and the regex
class used in the parasite-count pattern. -/
def isWsChar (c : Char) : Bool :=
  c = ' ' || c = '\t' || c = '\n' || c = '\r'

/-- Drop leading whitespace. -/
def skipWs : List Char → List Char
  | [] => []
  | c :: rest => if isWsChar c then skipWs rest else c :: rest

/-- Numeric value of a digit string (as matched by a regex capture and fed
to `parseInt`). -/
def digitsVal (ds : List Char) : Nat :=
  ds.foldl (fun a c => 10 * a + (c.toNat - 48)) 0

/-- JSON values, as produced by `JSON.parse`. -/
inductive Json where
  | str : String → Json
  | num : Int → Json
  | bool : Bool → Json
  | null : Json
  | arr : List Json → Json
  | obj : List (String × Json) → Json

/-- Decoded escape character for a backslash escape inside a JSON string
(`\u` hex escapes are not modeled; no claim exercises them). -/
def escChar (e : Char) : Option Char :=
  if e = dquote then some dquote
  else if e = bslash then some bslash
  else if e = '/' then some '/'
  else if e = 'n' then some '\n'
  else if e = 't' then some '\t'
  else if e = 'r' then some '\r'
  else if e = 'b' then some (Char.ofNat 8)
  else if e = 'f' then some (Char.ofNat 12)
  else none

/-- Parse the body of a JSON string after its opening quote, returning the
decoded characters and the remainder after the closing quote. Literal
control characters are rejected, as `JSON.parse` rejects them. -/
def strChars : List Char → Option (List Char × List Char)
  | [] => none
  | c :: rest =>
    if c = dquote then some ([], rest)
    else if c = bslash then
      match rest with
      | [] => none
      | e :: rest2 =>
        match escChar e with
        | none => none
        | some ec =>
          match strChars rest2 with
          | none => none
          | some (cs, rem) => some (ec :: cs, rem)
    else if c.toNat < 32 then none
    else
      match strChars rest with
      | none => none
      | some (cs, rem) => some (c :: cs, rem)

/-- Split a maximal leading run of ASCII digits from the input. -/
def digitSpan : List Char → List Char × List Char
  | [] => ([], [])
  | c :: rest =>
    if c.isDigit then
      let (ds, rem) := digitSpan rest
      (c :: ds, rem)
    else ([], c :: rest)

/-- Parse a JSON integer literal (optional minus, digits, no leading zeros).
Fractional and exponent forms are not modeled — no claim exercises them —
so such numbers are treated as unparseable input. -/
def parseJNum (cs : List Char) : Option (Int × List Char) :=
  let (neg, cs1) :=
    match cs with
    | c :: rest => if c = '-' then (true, rest) else (false, cs)
    | [] => (false, cs)
  match digitSpan cs1 with
  | ([], _) => none
  | (ds, rem) =>
    if ds.length > 1 && ds.headD '0' = '0' then none
    else
      let n : Int := if neg then -(digitsVal ds : Int) else (digitsVal ds : Int)
      match rem with
      | c :: _ => if c = '.' || c = 'e' || c = 'E' then none else some (n, rem)
      | [] => some (n, rem)

mutual

/-- Fuel-indexed parser for one JSON value, modeling `JSON.parse`. -/
def parseValue : Nat → List Char → Option (Json × List Char)
  | 0, _ => none
  | fuel + 1, cs =>
    match skipWs cs with
    | [] => none
    | c :: rest =>
      if c = dquote then
        match strChars rest with
        | some (scs, rem) => some (.str (String.mk scs), rem)
        | none => none
      else if c = lbrace then parseObj fuel rest
      else if c = '[' then parseArr fuel rest
      else if c.isDigit || c = '-' then
        match parseJNum (c :: rest) with
        | some (n, rem) => some (.num n, rem)
        | none => none
      else if ['t', 'r', 'u', 'e'].isPrefixOf (c :: rest) then
        some (.bool true, (c :: rest).drop 4)
      else if ['f', 'a', 'l', 's', 'e'].isPrefixOf (c :: rest) then
        some (.bool false, (c :: rest).drop 5)
      else if ['n', 'u', 'l', 'l'].isPrefixOf (c :: rest) then
        some (.null, (c :: rest).drop 4)
      else none

/-- Parse a JSON object body after its opening brace. -/
def parseObj : Nat → List Char → Option (Json × List Char)
  | 0, _ => none
  | fuel + 1, cs =>
    match skipWs cs with
    | [] => none
    | c :: rest =>
      if c = rbrace then some (.obj [], rest)
      else
        match parseMember fuel (c :: rest) with
        | some (kv, rem) => parseObjRest fuel [kv] rem
        | none => none

/-- Parse one `"key": value` member of a JSON object. -/
def parseMember : Nat → List Char → Option ((String × Json) × List Char)
  | 0, _ => none
  | fuel + 1, cs =>
    match skipWs cs with
    | c :: rest =>
      if c = dquote then
        match strChars rest with
        | some (kcs, rem) =>
          match skipWs rem with
          | d :: rem2 =>
            if d = ':' then
              match parseValue fuel rem2 with
              | some (v, rem3) => some ((String.mk kcs, v), rem3)
              | none => none
            else none
          | [] => none
        | none => none
      else none
    | [] => none

/-- Parse the remaining members of a JSON object after the first. -/
def parseObjRest : Nat → List (String × Json) → List Char → Option (Json × List Char)
  | 0, _, _ => none
  | fuel + 1, acc, cs =>
    match skipWs cs with
    | c :: rest =>
      if c = ',' then
        match parseMember fuel rest with
        | some (kv, rem) => parseObjRest fuel (acc ++ [kv]) rem
        | none => none
      else if c = rbrace then some (.obj acc, rest)
      else none
    | [] => none

/-- Parse a JSON array body after its opening bracket. -/
def parseArr : Nat → List Char → Option (Json × List Char)
  | 0, _ => none
  | fuel + 1, cs =>
    match skipWs cs with
    | [] => none
    | c :: rest =>
      if c = ']' then some (.arr [], rest)
      else
        match parseValue fuel (c :: rest) with
        | some (v, rem) => parseArrRest fuel [v] rem
        | none => none

/-- Parse the remaining elements of a JSON array after the first. -/
def parseArrRest : Nat → List Json → List Char → Option (Json × List Char)
  | 0, _, _ => none
  | fuel + 1, acc, cs =>
    match skipWs cs with
    | c :: rest =>
      if c = ',' then
        match parseValue fuel rest with
        | some (v, rem) => parseArrRest fuel (acc ++ [v]) rem
        | none => none
      else if c = ']' then some (.arr acc, rest)
      else none
    | [] => none

end

/-- Model of `JSON.parse`: parse a complete JSON document, requiring the
whole input to be consumed (modulo trailing whitespace); `none` models a
thrown `SyntaxError`. -/
def jsonParse (s : String) : Option Json :=
  match parseValue (2 * s.length + 4) s.toList with
  | some (j, rest) => if skipWs rest = [] then some j else none
  | none => none

/-- JS property read `parsed.k` on a parse result: on an object, the last
binding for the key (as `JSON.parse` keeps the last duplicate key); `none`
models the read producing `undefined`. -/
def Json.getField : Json → String → Option Json
  | .obj kvs, k => kvs.reverse.lookup k
  | _, _ => none

/-- JS truthiness of a JSON value (`0`, the empty string, `false` and
`null` are falsy; arrays and objects are truthy). -/
def truthy : Json → Bool
  | .num n => n ≠ 0
  | .str s => s ≠ ""
  | .bool b => b
  | .null => false
  | .arr _ => true
  | .obj _ => true

/-- The JS idiom `v || d` applied to a possibly-absent field value, as in
`parsed.confidence || 50` (index.ts lines 109-111). -/
def jsOr (v : Option Json) (d : Json) : Json :=
  match v with
  | some j => if truthy j then j else d
  | none => d

/-- Model of `String.prototype.toLowerCase` for the ASCII strings the code
manipulates. -/
def lowerStr (s : String) : String :=
  String.mk (s.toList.map Char.toLower)

/-- Model of `String.prototype.toUpperCase`. -/
def upperStr (s : String) : String :=
  String.mk (s.toList.map Char.toUpper)

/-- Whether `needle` occurs as a contiguous substring of the haystack;
models `String.prototype.includes`. -/
def substrOccurs (needle : List Char) : List Char → Bool
  | [] => needle.isEmpty
  | c :: rest => needle.isPrefixOf (c :: rest) || substrOccurs needle rest

/-- `h.includes(n)` for strings. -/
def jsIncludes (h n : String) : Bool :=
  substrOccurs n.toList h.toList

/-- Model of `aiContent.match(/\x7b[\s\S]*\x7d/)` (index.ts line 105): the
greedy brace regex matches from the first left brace to the last right
brace, provided that right brace lies strictly after the first left brace;
otherwise there is no match. -/
def jsonMatch (s : String) : Option String :=
  let cs := s.toList
  match cs.findIdx? (· = lbrace), cs.reverse.findIdx? (· = rbrace) with
  | some i, some k =>
    let j := cs.length - 1 - k
    if i < j then some (String.mk ((cs.drop i).take (j - i + 1))) else none
  | _, _ => none

/-- First match of `/(\d+)%/` (index.ts line 118): the value of the maximal
digit run immediately preceding the leftmost percent sign that follows a
digit. The accumulator carries the digit run read so far. -/
def percentScan (run : List Char) : List Char → Option Nat
  | [] => none
  | c :: rest =>
    if c.isDigit then percentScan (run ++ [c]) rest
    else if c = '%' && !run.isEmpty then some (digitsVal run)
    else percentScan [] rest

/-- Case-insensitive test that the word "parasite" starts at the head of
the input. -/
def parasiteHere (cs : List Char) : Bool :=
  ['p', 'a', 'r', 'a', 's', 'i', 't', 'e'].isPrefixOf (cs.map Char.toLower)

/-- First match of `/(\d+)\s*parasite/i` (index.ts line 124): the value of
the maximal digit run that is followed by optional whitespace and then the
word "parasite" (case-insensitive), at the leftmost such position. `run`
carries the pending digit run; `afterWs` records that whitespace has been
read since the run, so a further digit starts a fresh run. -/
def parasiteScan (run : List Char) (afterWs : Bool) : List Char → Option Nat
  | [] => none
  | c :: rest =>
    if !run.isEmpty && parasiteHere (c :: rest) then some (digitsVal run)
    else if c.isDigit then
      if afterWs then parasiteScan [c] false rest
      else parasiteScan (run ++ [c]) false rest
    else if isWsChar c then
      if run.isEmpty then parasiteScan [] false rest
      else parasiteScan run true rest
    else parasiteScan [] false rest

/-- The four parser outputs of index.ts lines 98-101: the mutable locals
`result`, `confidence`, `parasitesCount`, `description`. The verdict is a
string; the other three hold whatever JS value the code assigned (a number
on every default path, but `parsed.confidence || 50` keeps an arbitrary
truthy JSON value). -/
structure ParseOut where
  result : String
  confidence : Json
  parasitesCount : Json
  description : Json

/-- The initial values of the parser locals (index.ts lines 98-101), which
are also the values surviving any caught exception. -/
def defaultParse (aiContent : String) : ParseOut :=
  { result := "negative"
    confidence := .num 50
    parasitesCount := .num 0
    description := .str aiContent }

/-- The verdict computed by
`parsed.result?.toLowerCase().includes('positive') ? 'positive' : 'negative'`
(index.ts line 108). A missing or `null` field short-circuits the optional
chain to `undefined`, giving `'negative'`; a non-string, non-nullish field
makes `.toLowerCase` throw a `TypeError`, modeled as `none`. -/
def resultVerdict : Option Json → Option String
  | none => some "negative"
  | some .null => some "negative"
  | some (.str s) => some (if jsIncludes (lowerStr s) "positive" then "positive" else "negative")
  | some _ => none

/-- The fallback branch of the parser (index.ts lines 112-128), used when
the brace regex finds no match: keyword verdict, percent-suffixed
confidence, parasite-suffixed count; `description` keeps the raw text. -/
def fallbackParse (aiContent : String) : ParseOut :=
  let lower := lowerStr aiContent
  { result :=
      if jsIncludes lower "positive" || jsIncludes lower "detected" then "positive"
      else "negative"
    confidence :=
      match percentScan [] aiContent.toList with
      | some n => .num n
      | none => .num 50
    parasitesCount :=
      match parasiteScan [] false aiContent.toList with
      | some n => .num n
      | none => .num 0
    description := .str aiContent }

/-- The body of the parser's `try` block (index.ts lines 103-128), before
the surrounding `catch`: `Except.error ()` models an exception escaping
the block (`JSON.parse` throwing, or the `TypeError` on a non-string
`result` field). Both throw points precede every assignment to the four
locals, so a thrown exception leaves all four at their initial values. -/
def tryParseBody (aiContent : String) : Except Unit ParseOut :=
  match jsonMatch aiContent with
  | some m =>
    match jsonParse m with
    | none => .error ()
    | some parsed =>
      match resultVerdict (parsed.getField "result") with
      | none => .error ()
      | some verdict =>
        .ok { result := verdict
              confidence := jsOr (parsed.getField "confidence") (.num 50)
              parasitesCount := jsOr (parsed.getField "parasites_count") (.num 0)
              description := jsOr (parsed.getField "description") (.str aiContent) }
  | none => .ok (fallbackParse aiContent)

/-- The complete Diagnosis Parser (index.ts lines 97-131): the `try` body
with its `catch` that swallows any exception, leaving the defaults. -/
def parseAnalysis (aiContent : String) : ParseOut :=
  match tryParseBody aiContent with
  | .ok r => r
  | .error _ => defaultParse aiContent

example : jsonMatch "no braces here" = none := by rfl

example :
    parseAnalysis "\x7b\"result\":\"positive\",\"confidence\":87,\"parasites_count\":12,\"description\":\"x\"\x7d"
      = { result := "positive", confidence := .num 87, parasitesCount := .num 12,
          description := .str "x" } := by rfl

example : parseAnalysis "" = defaultParse "" := by rfl

example : (parseAnalysis "Diagnosis: positive. Confidence: 73%. 5 parasites detected.").confidence
    = Json.num 73 := by rfl

/-! Orchestrator model: the `serve` handler of
`supabase/functions/analyze-blood-smear/index.ts` acting on the `uploads`
and `reports` tables. -/

/-- One row of the `uploads` table (migration
`20251003115757`, lines 171-182): the Sample of the spec. Optional
columns are nullable in the schema. -/
structure Upload where
  id : String
  user_id : String
  file_url : String
  file_name : String
  diagnosis_result : Option String
  probability_score : Option Json
  parasites_detected : Option Json
  heatmap_url : Option String
  status : String
  created_at : Nat

/-- One row of the `reports` table, restricted to the columns the analyze
function inserts (index.ts lines 147-156). -/
structure Report where
  user_id : String
  upload_id : String
  result_summary : String
  recommendations : String

/-- The persistent store visible to the function: the two tables it
touches. -/
structure Store where
  uploads : List Upload
  reports : List Report

/-- The `.select().eq('id', uploadId).single()` read (index.ts lines
29-33), under the schema's primary-key uniqueness of `id`. -/
def getUpload (s : Store) (uid : String) : Option Upload :=
  s.uploads.find? (fun u => u.id == uid)

/-- The effect of an `.update(fields).eq('id', uploadId)` statement on the
`uploads` table. -/
def updateUploads (s : Store) (uid : String) (f : Upload → Upload) : Store :=
  { s with uploads := s.uploads.map (fun u => if u.id == uid then f u else u) }

/-- The `processing` update (index.ts lines 40-43). -/
def procUpdate (u : Upload) : Upload :=
  { u with status := "processing" }

/-- The `completed` update (index.ts lines 134-142): status plus the three
diagnosis columns, nothing else. -/
def complUpdate (p : ParseOut) (u : Upload) : Upload :=
  { u with
    status := "completed"
    diagnosis_result := some p.result
    probability_score := some p.confidence
    parasites_detected := some p.parasitesCount }

/-- String interpolation of a JS value into a template literal, for the
values the parser can produce (interpolation of arrays and objects is not
exercised by any claim and is modeled approximately). -/
def jsToString : Json → String
  | .str s => s
  | .num n => toString n
  | .bool b => if b then "true" else "false"
  | .null => "null"
  | .arr _ => ""
  | .obj _ => "[object Object]"

/-- The first of the two fixed recommendation strings (index.ts line
154). -/
def recPositive : String :=
  "Immediate medical consultation recommended. Follow up with confirmatory testing and appropriate antimalarial treatment if confirmed."

/-- The second fixed recommendation string (index.ts line 155). -/
def recNegative : String :=
  "No malaria parasites detected. Continue monitoring if symptoms persist. Consult healthcare provider for any concerns."

/-- The `recommendations` ternary of the report insert (index.ts lines
153-155): selected solely by `result === 'positive'`. -/
def recommendFor (result : String) : String :=
  if result = "positive" then recPositive else recNegative

/-- The report row built by the insert (index.ts lines 147-156), with the
`result_summary` template literal of line 152. -/
def mkReport (upload : Upload) (uploadId : String) (p : ParseOut) : Report :=
  { user_id := upload.user_id
    upload_id := uploadId
    result_summary :=
      "Diagnosis: " ++ upperStr p.result ++ "\nConfidence: " ++ jsToString p.confidence
        ++ "%\nParasites detected: " ++ jsToString p.parasitesCount
        ++ "\n\nAnalysis:\n" ++ jsToString p.description
    recommendations := recommendFor p.result }

/-- Outcome of the single `fetch` to the AI gateway (index.ts lines
46-77): a success carrying the `choices[0].message.content` text, or a
non-success response with its HTTP status and body text. -/
inductive AIOutcome where
  | ok (content : String)
  | err (status : Nat) (body : String)

/-- Observable side effects of one invocation, in program order.
`writeUpload` carries the row as it stands after the update, and is the
only constructor counting as a persisted write to the Sample Store. -/
inductive Event where
  | readUpload (id : String)
  | writeUpload (u : Upload)
  | fetchAI
  | insertReport (r : Report)

/-- The success response body (index.ts lines 160-168). -/
structure RespBody where
  result : String
  confidence : Json
  parasitesCount : Json

/-- The error message thrown on a non-success AI response (index.ts lines
83-89), derived from the HTTP status: 429 and 402 get dedicated messages,
anything else the generic upstream message. -/
def errMsgFor (status : Nat) (body : String) : String :=
  if status = 429 then "Rate limit exceeded. Please try again later."
  else if status = 402 then "AI credits exhausted. Please add credits to continue."
  else "AI analysis failed: " ++ body

/-- The `serve` handler of index.ts, from the `uploadId` check to the
response: returns the final store, the ordered side-effect trace, and the
caller-visible outcome (`Except.error` models the thrown error surfacing
as the HTTP 500 body of lines 173-182). -/
def analyze (store : Store) (uploadId : Option String) (ai : AIOutcome) :
    Store × List Event × Except String RespBody :=
  match uploadId with
  | none => (store, [], .error "Upload ID is required")
  | some uid =>
    match getUpload store uid with
    | none => (store, [.readUpload uid], .error "upload not found")
    | some upload =>
      let store1 := updateUploads store uid procUpdate
      let tr1 : List Event := [.readUpload uid, .writeUpload (procUpdate upload)]
      match ai with
      | .err st body =>
        (store1, tr1 ++ [.fetchAI], .error (errMsgFor st body))
      | .ok content =>
        let p := parseAnalysis content
        let store2 := updateUploads store1 uid (complUpdate p)
        let rep := mkReport upload uid p
        let store3 := { store2 with reports := store2.reports ++ [rep] }
        (store3,
         tr1 ++ [.fetchAI, .writeUpload (complUpdate p (procUpdate upload)), .insertReport rep],
         .ok { result := p.result, confidence := p.confidence, parasitesCount := p.parasitesCount })

/-- The sample-store writes of a trace, in order, as the rows they
persisted. -/
def writeRecords : List Event → List Upload
  | [] => []
  | .writeUpload u :: rest => u :: writeRecords rest
  | _ :: rest => writeRecords rest

/-- Count of external network calls in a trace. -/
def fetchCount : List Event → Nat
  | [] => 0
  | .fetchAI :: rest => fetchCount rest + 1
  | _ :: rest => fetchCount rest

/-- The reports inserted by a trace. -/
def insertedReports : List Event → List Report
  | [] => []
  | .insertReport r :: rest => r :: insertedReports rest
  | _ :: rest => insertedReports rest

/-! The claimed Sample Store invariant (spec section 3). The spec's single
optional `diagnosis` value is spread across three columns in the schema;
`diagnosis_result` and `probability_score` are null until the completed
write. (`parasites_detected` carries a schema default of 0, so it is
non-null from row creation and is excluded from the nullability reading of
the invariant.) -/

/-- Per-row half of the claimed invariant: diagnosis columns are non-null
exactly on `completed` rows. -/
def invariantB (u : Upload) : Bool :=
  (u.diagnosis_result.isSome && u.probability_score.isSome) == (u.status == "completed")

/-- Whether a status is terminal in the spec's state machine. -/
def terminalStatus (s : String) : Bool :=
  s == "completed" || s == "failed"

/-- Whether a status is a pre-terminal (active) state. -/
def activeStatus (s : String) : Bool :=
  s == "pending" || s == "processing"

/-- Forward-only half of the claimed invariant over the sequence of
persisted statuses: a terminal status is never followed by an active
one. -/
def noBackwardB : List String → Bool
  | [] => true
  | [_] => true
  | a :: b :: rest => !(terminalStatus a && activeStatus b) && noBackwardB (b :: rest)

/-- The full claimed invariant over the persisted writes of a trace. -/
def claimC2B (tr : List Event) : Bool :=
  (writeRecords tr).all invariantB && noBackwardB ((writeRecords tr).map (·.status))

/-! Report layout model: the per-line page-break loops of
`src/pages/Reports.tsx`, `downloadReport` (lines 203-232), and the
deferred footer stamping (lines 234-246). -/

/-- Layout cursor state: finished pages, the page being filled, and the
vertical cursor `y`. -/
structure Layout where
  pages : List (List String)
  cur : List String
  y : Nat

/-- Emit one text line (the body of each `forEach` at lines 204-211 and
224-231): if the cursor has passed 270 a new page is started with the
cursor reset to 20, then the line is written and the cursor advances by
6. -/
def emitLine (st : Layout) (line : String) : Layout :=
  if st.y > 270 then
    { pages := st.pages ++ [st.cur], cur := [line], y := 20 + 6 }
  else
    { st with cur := st.cur ++ [line], y := st.y + 6 }

/-- Run the layout loop over a block of pre-wrapped lines. -/
def layoutLines (st : Layout) (lines : List String) : Layout :=
  lines.foldl emitLine st

/-- All pages of a finished layout, the in-progress page included. -/
def finishPages (st : Layout) : List (List String) :=
  st.pages ++ [st.cur]

/-- The summary/recommendation layout of `downloadReport`: the summary
lines are laid out from the running cursor `y0`, the cursor gains 6 (line
212), and when a recommendations text is present its header costs a
further 8 (lines 215-222) before its lines are laid out. `none` models a
null `recommendations` column, whose section is skipped. -/
def reportPages (summaryLines : List String) (recLines : Option (List String)) (y0 : Nat) :
    List (List String) :=
  let st1 := layoutLines { pages := [], cur := [], y := y0 } summaryLines
  let st2 : Layout := { st1 with y := st1.y + 6 }
  match recLines with
  | none => finishPages st2
  | some rl => finishPages (layoutLines { st2 with y := st2.y + 8 } rl)

/-- Deferred footer stamping (lines 234-246): after layout is complete,
each page receives a `Page i of N` footer computed from the total page
count; page content is untouched. -/
def stampFrom (total i : Nat) : List (List String) → List (List String × String)
  | [] => []
  | p :: rest =>
    (p, "Page " ++ toString i ++ " of " ++ toString total) :: stampFrom total (i + 1) rest

/-- Stamp every page of a finished layout with its 1-based footer. -/
def stampFooters (pgs : List (List String)) : List (List String × String) :=
  stampFrom pgs.length 1 pgs

lemma finishPages_flatten (st : Layout) :
    (finishPages st).flatten = st.pages.flatten ++ st.cur := by
  simp [finishPages]

lemma finishPages_emitLine (st : Layout) (line : String) :
    (finishPages (emitLine st line)).flatten = (finishPages st).flatten ++ [line] := by
  unfold emitLine
  split <;> simp [finishPages_flatten]

lemma finishPages_layoutLines (lines : List String) (st : Layout) :
    (finishPages (layoutLines st lines)).flatten = (finishPages st).flatten ++ lines := by
  induction lines generalizing st with
  | nil => simp [layoutLines]
  | cons l rest ih =>
    have h1 : layoutLines st (l :: rest) = layoutLines (emitLine st l) rest := by
      simp [layoutLines, List.foldl]
    rw [h1, ih, finishPages_emitLine]
    simp

lemma stampFrom_fst (pgs : List (List String)) :
    ∀ total i, (stampFrom total i pgs).map Prod.fst = pgs := by
  induction pgs with
  | nil => intro total i; rfl
  | cons p rest ih => intro total i; simp [stampFrom, ih]

/-! Concrete fixtures used by several theorems: a freshly uploaded sample
as `UploadSection.tsx` creates it (status `pending`, diagnosis columns
null; `parasites_detected` holds the schema's default 0). -/

/-- A freshly inserted upload row. -/
def sampleUpload : Upload :=
  { id := "u1"
    user_id := "alice"
    file_url := "https://example.org/smear.png"
    file_name := "smear.png"
    diagnosis_result := none
    probability_score := none
    parasites_detected := some (.num 0)
    heatmap_url := none
    status := "pending"
    created_at := 0 }

/-- A store holding exactly the fresh sample. -/
def sampleStore : Store :=
  { uploads := [sampleUpload], reports := [] }

lemma resultVerdict_cases {o : Option Json} {v : String} (h : resultVerdict o = some v) :
    v = "positive" ∨ v = "negative" := by
  cases o with
  | none =>
    simp only [resultVerdict, Option.some.injEq] at h
    exact Or.inr h.symm
  | some j =>
    cases j with
    | str t =>
      simp only [resultVerdict, Option.some.injEq] at h
      by_cases hb : jsIncludes (lowerStr t) "positive" = true
      · rw [if_pos hb] at h
        exact Or.inl h.symm
      · rw [if_neg hb] at h
        exact Or.inr h.symm
    | num n => simp [resultVerdict] at h
    | bool b => simp [resultVerdict] at h
    | null =>
      simp only [resultVerdict, Option.some.injEq] at h
      exact Or.inr h.symm
    | arr xs => simp [resultVerdict] at h
    | obj kvs => simp [resultVerdict] at h

lemma fallbackParse_result (s : String) :
    (fallbackParse s).result = "positive" ∨ (fallbackParse s).result = "negative" := by
  by_cases hb : (jsIncludes (lowerStr s) "positive" || jsIncludes (lowerStr s) "detected") = true
  · left
    simp [fallbackParse, hb]
  · right
    simp [fallbackParse, hb]

lemma tryParseBody_result {s : String} {r : ParseOut} (h : tryParseBody s = .ok r) :
    r.result = "positive" ∨ r.result = "negative" := by
  unfold tryParseBody at h
  split at h
  · split at h
    · cases h
    · split at h
      · cases h
      next v hv =>
        simp only [Except.ok.injEq] at h
        subst h
        exact resultVerdict_cases hv
  · simp only [Except.ok.injEq] at h
    subst h
    exact fallbackParse_result s

/-- C3: the diagnosis parser is total: for every input string it yields a
complete result whose verdict is one of the two verdict strings; whenever
the try-block raises (bad JSON in the brace match, or a TypeError on a
non-string result field) the caught exception leaves exactly the
documented defaults (negative / 50 / 0 / the raw text), and otherwise the
try-block's complete value is returned unchanged. -/
theorem c3_parser_total (s : String) :
    ((parseAnalysis s).result = "positive" ∨ (parseAnalysis s).result = "negative")
    ∧ (∀ e : Unit, tryParseBody s = .error e → parseAnalysis s = defaultParse s)
    ∧ (∀ r : ParseOut, tryParseBody s = .ok r → parseAnalysis s = r) := by
  refine ⟨?_, ?_, ?_⟩
  · cases h : tryParseBody s with
    | error e =>
      simp [parseAnalysis, h, defaultParse]
    | ok r =>
      have hr := tryParseBody_result h
      simpa [parseAnalysis, h] using hr
  · intro e he
    simp [parseAnalysis, he]
  · intro r hr
    simp [parseAnalysis, hr]

/-- Witness for C3 at the input consisting of a brace-delimited substring
that is not valid JSON: the parse degenerates to the documented
defaults. -/
theorem c3_parser_total_witness :
    parseAnalysis "\x7bx\x7d" = defaultParse "\x7bx\x7d"
    ∧ ((parseAnalysis "\x7bx\x7d").result = "positive"
        ∨ (parseAnalysis "\x7bx\x7d").result = "negative") := by
  have h := c3_parser_total "\x7bx\x7d"
  exact ⟨h.2.1 () rfl, h.1⟩

/-- C4 counterexample: on the input consisting of an unparseable
brace-delimited substring followed by a labelled confidence, the claim
says the regex fallback fills confidence with 73; the code instead lands
in the catch and keeps the default 50, so the parse differs from the
fallback parse. -/
theorem c4_counterexample :
    (parseAnalysis "\x7bx\x7d Confidence: 73%").confidence = Json.num 50
    ∧ (fallbackParse "\x7bx\x7d Confidence: 73%").confidence = Json.num 73
    ∧ parseAnalysis "\x7bx\x7d Confidence: 73%"
        ≠ fallbackParse "\x7bx\x7d Confidence: 73%" := by
  refine ⟨rfl, rfl, ?_⟩
  intro h
  have h2 : Json.num 50 = Json.num 73 := by
    calc Json.num 50 = (parseAnalysis "\x7bx\x7d Confidence: 73%").confidence := rfl
      _ = (fallbackParse "\x7bx\x7d Confidence: 73%").confidence :=
          congrArg ParseOut.confidence h
      _ = Json.num 73 := rfl
  injection h2 with h3
  exact absurd h3 (by decide)

/-- C4 (amended): the regex fallback is used exactly when the brace regex
finds no match at all; an input whose brace-delimited substring fails to
parse as JSON instead falls to the catch and keeps the full defaults. -/
theorem c4_fallback_scope (s : String) :
    (jsonMatch s = none → parseAnalysis s = fallbackParse s)
    ∧ (∀ m, jsonMatch s = some m → jsonParse m = none →
        parseAnalysis s = defaultParse s) := by
  constructor
  · intro h
    simp [parseAnalysis, tryParseBody, h]
  · intro m h1 h2
    simp [parseAnalysis, tryParseBody, h1, h2]

/-- Witness for C4 (amended): a brace-free labelled input takes the
fallback; a broken brace-delimited input takes the defaults. -/
theorem c4_fallback_scope_witness :
    parseAnalysis "Confidence: 73%" = fallbackParse "Confidence: 73%"
    ∧ parseAnalysis "\x7bx\x7d Confidence: 73%"
        = defaultParse "\x7bx\x7d Confidence: 73%" := by
  have h1 := c4_fallback_scope "Confidence: 73%"
  have h2 := c4_fallback_scope "\x7bx\x7d Confidence: 73%"
  exact ⟨h1.1 rfl, h2.2 "\x7bx\x7d" rfl rfl⟩

/-- C5: on the well-formed JSON input the parser returns exactly verdict
positive, confidence 87, parasite count 12, findings "x". -/
theorem c5_wellformed_json_exact :
    parseAnalysis "\x7b\"result\":\"positive\",\"confidence\":87,\"parasites_count\":12,\"description\":\"x\"\x7d"
      = { result := "positive", confidence := .num 87, parasitesCount := .num 12,
          description := .str "x" } := by
  rfl

/-- C9: in the JSON-extraction path the per-field defaults fire on falsy
values, not only missing ones: a parsed confidence of 0 yields 50, and a
parsed empty-string description yields the full raw input text as
findings. (Both hold whether or not the result-field read throws, since
the catch also restores the same defaults.) -/
theorem c9_falsy_field_defaults :
    (∀ s m j, jsonMatch s = some m → jsonParse m = some j →
        j.getField "confidence" = some (.num 0) →
        (parseAnalysis s).confidence = .num 50)
    ∧ (∀ s m j, jsonMatch s = some m → jsonParse m = some j →
        j.getField "description" = some (.str "") →
        (parseAnalysis s).description = .str s) := by
  constructor
  · intro s m j h1 h2 h3
    unfold parseAnalysis tryParseBody
    simp only [h1, h2]
    cases hv : resultVerdict (j.getField "result") with
    | none => simp [defaultParse]
    | some v => simp [jsOr, h3, truthy]
  · intro s m j h1 h2 h3
    unfold parseAnalysis tryParseBody
    simp only [h1, h2]
    cases hv : resultVerdict (j.getField "result") with
    | none => simp [defaultParse]
    | some v => simp [jsOr, h3, truthy]

/-- Witness for C9 at concrete one-field objects. -/
theorem c9_falsy_field_defaults_witness :
    (parseAnalysis "\x7b\"confidence\":0\x7d").confidence = Json.num 50
    ∧ (parseAnalysis "\x7b\"description\":\"\"\x7d").description
        = Json.str "\x7b\"description\":\"\"\x7d" := by
  have h1 := c9_falsy_field_defaults.1 "\x7b\"confidence\":0\x7d"
    "\x7b\"confidence\":0\x7d" (Json.obj [("confidence", Json.num 0)]) rfl rfl rfl
  have h2 := c9_falsy_field_defaults.2 "\x7b\"description\":\"\"\x7d"
    "\x7b\"description\":\"\"\x7d" (Json.obj [("description", Json.str "")]) rfl rfl rfl
  exact ⟨h1, h2⟩

lemma finishPages_setY (st : Layout) (n : Nat) :
    finishPages { st with y := n } = finishPages st := rfl

/-- C6: the report-text pagination emits every input line exactly once, in
input order, across the produced pages (so the total line count over all
pages equals the input line count), for any summary block, optional
recommendations block, and starting cursor — including the empty input and
exact page-boundary fills; and identical inputs produce identical
layouts. Deferred footer stamping leaves the page contents untouched. -/
theorem c6_paginate_preserves_lines (summaryLines : List String)
    (recLines : Option (List String)) (y0 : Nat) :
    ((reportPages summaryLines recLines y0).flatten
        = summaryLines ++ recLines.getD []
      ∧ ((reportPages summaryLines recLines y0).map List.length).sum
        = summaryLines.length + (recLines.getD []).length
      ∧ (stampFooters (reportPages summaryLines recLines y0)).map Prod.fst
        = reportPages summaryLines recLines y0)
    ∧ (∀ s2 r2 y2, summaryLines = s2 → recLines = r2 → y0 = y2 →
        reportPages summaryLines recLines y0 = reportPages s2 r2 y2) := by
  have hflat : (reportPages summaryLines recLines y0).flatten
      = summaryLines ++ recLines.getD [] := by
    unfold reportPages
    cases recLines with
    | none =>
      dsimp only
      rw [finishPages_setY, finishPages_layoutLines]
      simp [finishPages]
    | some rl =>
      dsimp only
      rw [finishPages_layoutLines, finishPages_setY, finishPages_layoutLines]
      simp [finishPages]
  refine ⟨⟨hflat, ?_, stampFrom_fst _ _ _⟩, ?_⟩
  · have hlen := congrArg List.length hflat
    simpa [List.length_flatten] using hlen
  · intro s2 r2 y2 h1 h2 h3
    subst h1
    subst h2
    subst h3
    rfl

/-- Witness for C6 at a concrete report: two summary lines and one
recommendation line, laid out from cursor 20. -/
theorem c6_paginate_preserves_lines_witness :
    reportPages ["a", "b"] (some ["c"]) 20 = reportPages ["a", "b"] (some ["c"]) 20
    ∧ (reportPages ["a", "b"] (some ["c"]) 20).flatten = ["a", "b", "c"] := by
  have h := c6_paginate_preserves_lines ["a", "b"] (some ["c"]) 20
  exact ⟨h.2 ["a", "b"] (some ["c"]) 20 rfl rfl rfl, h.1.1⟩

/-- C7: the recommendation text is a function of the verdict alone, taking
one of exactly two fixed string values: any two parses with the same
verdict, attached to any two uploads, produce reports with identical
recommendation strings. -/
theorem c7_recommend_verdict_only :
    (∀ v : String, recommendFor v = recPositive ∨ recommendFor v = recNegative)
    ∧ (∀ (p q : ParseOut) (u1 u2 : Upload) (id1 id2 : String),
        p.result = q.result →
        (mkReport u1 id1 p).recommendations = (mkReport u2 id2 q).recommendations) := by
  constructor
  · intro v
    by_cases h : v = "positive"
    · left
      simp [recommendFor, h]
    · right
      simp [recommendFor, h]
  · intro p q u1 u2 id1 id2 h
    simp [mkReport, recommendFor, h]

/-- Witness for C7: same verdict, different confidence, parasite count and
findings, identical recommendations. -/
theorem c7_recommend_verdict_only_witness :
    (mkReport sampleUpload "u1"
        { result := "positive", confidence := .num 10, parasitesCount := .num 1,
          description := .str "a" }).recommendations
      = (mkReport sampleUpload "u1"
          { result := "positive", confidence := .num 99, parasitesCount := .num 7,
            description := .str "b" }).recommendations :=
  c7_recommend_verdict_only.2 _ _ _ _ _ _ rfl

/-- C1 (code evaluated at the failing input): invoking analyze on the
fresh pending sample while the model gateway answers with a non-success
response (HTTP 500, body "boom") leaves the persisted status at
`processing` — no `failed` status is ever written — while the raised error
does carry the upstream message and no diagnosis column is written. The
only persisted write of the invocation is the `processing` one. -/
theorem c1_failure_leaves_processing :
    (getUpload (analyze sampleStore (some "u1") (.err 500 "boom")).1 "u1").map (fun u => u.status)
        = some "processing"
    ∧ (getUpload (analyze sampleStore (some "u1") (.err 500 "boom")).1 "u1").map (fun u => u.status)
        ≠ some "failed"
    ∧ (getUpload (analyze sampleStore (some "u1") (.err 500 "boom")).1 "u1").map (fun u => u.diagnosis_result)
        = some none
    ∧ (analyze sampleStore (some "u1") (.err 500 "boom")).2.2
        = .error "AI analysis failed: boom"
    ∧ writeRecords (analyze sampleStore (some "u1") (.err 500 "boom")).2.1
        = [procUpdate sampleUpload] := by
  refine ⟨rfl, ?_, rfl, rfl, rfl⟩
  intro h
  have h2 : some "processing" = (some "failed" : Option String) := by
    calc (some "processing" : Option String)
        = (getUpload (analyze sampleStore (some "u1") (.err 500 "boom")).1 "u1").map (fun u => u.status) := rfl
      _ = some "failed" := h
  simp at h2

/-- C2 counterexample: one sample, two successive analyze invocations on
it (both successful). The second invocation's `processing` write persists
a record whose diagnosis columns are still populated from the first run
while its status has moved back from `completed` to `processing`, so the
claimed store invariant fails over this sequence of invocations. -/
theorem c2_counterexample :
    claimC2B ((analyze sampleStore (some "u1") (.ok "positive")).2.1
        ++ (analyze (analyze sampleStore (some "u1") (.ok "positive")).1
              (some "u1") (.ok "positive")).2.1) = false := by
  rfl

/-- C2 (amended): within a single analyze invocation on a sample whose
diagnosis columns are still null, every persisted write satisfies the
invariant (diagnosis columns populated exactly on `completed`) and the
persisted statuses never move backward. The original claim's
quantification over arbitrary sequences of invocations fails, because
re-analyzing a terminal sample first rewrites it to `processing`. -/
theorem c2_single_invocation_invariant (store : Store) (uid : String) (u : Upload)
    (ai : AIOutcome) (h : getUpload store uid = some u)
    (hd : u.diagnosis_result = none) (hp : u.probability_score = none) :
    claimC2B (analyze store (some uid) ai).2.1 = true := by
  cases ai with
  | err st body =>
    simp [analyze, h, claimC2B, writeRecords, invariantB, procUpdate, hd, hp,
      noBackwardB, terminalStatus, activeStatus]
  | ok content =>
    simp [analyze, h, claimC2B, writeRecords, invariantB, procUpdate, complUpdate,
      hd, hp, noBackwardB, terminalStatus, activeStatus]

/-- Witness for the amended C2: the fresh pending sample, one successful
invocation. -/
theorem c2_single_invocation_invariant_witness :
    claimC2B (analyze sampleStore (some "u1") (.ok "positive")).2.1 = true :=
  c2_single_invocation_invariant sampleStore "u1" sampleUpload (.ok "positive") rfl rfl rfl

/-- C8 counterexample: an invocation whose sample id is unknown performs
zero external network calls, refuting the claim's unconditional
"exactly one external network call per invocation". -/
theorem c8_counterexample :
    ¬ (∀ (store : Store) (uploadId : Option String) (ai : AIOutcome),
        fetchCount (analyze store uploadId ai).2.1 = 1) := by
  intro hall
  have h := hall { uploads := [], reports := [] } (some "u1") (.ok "x")
  simp [analyze, getUpload, fetchCount] at h

/-- C8 (amended): every analyze invocation that successfully loads its
sample performs exactly one external network call, and performs exactly
two persisted sample-store writes when the model call succeeds (the
`processing` and `completed` writes) or exactly one when it fails. -/
theorem c8_effect_counts (store : Store) (uid : String) (u : Upload) (ai : AIOutcome)
    (h : getUpload store uid = some u) :
    fetchCount (analyze store (some uid) ai).2.1 = 1
    ∧ (writeRecords (analyze store (some uid) ai).2.1).length
        = (match ai with | .ok _ => 2 | .err _ _ => 1) := by
  cases ai with
  | ok content => simp [analyze, h, fetchCount, writeRecords]
  | err st body => simp [analyze, h, fetchCount, writeRecords]

/-- Witness for the amended C8: the fresh sample with a failing model
call: one network call, one sample-store write. -/
theorem c8_effect_counts_witness :
    fetchCount (analyze sampleStore (some "u1") (.err 500 "x")).2.1 = 1
    ∧ (writeRecords (analyze sampleStore (some "u1") (.err 500 "x")).2.1).length = 1 :=
  c8_effect_counts sampleStore "u1" sampleUpload (.err 500 "x") rfl

/-- C10: the completed write modifies only the status and the three
diagnosis columns; id, user id, file url, file name, heatmap url and
creation time are untouched; the findings text reaches only the report's
result summary — the persisted sample record is entirely determined by
the verdict, confidence and parasite count, independently of the
description. -/
theorem c10_completed_write_frame (store : Store) (uid : String) (u : Upload) (c : String)
    (h : getUpload store uid = some u) :
    writeRecords (analyze store (some uid) (.ok c)).2.1
        = [procUpdate u, complUpdate (parseAnalysis c) (procUpdate u)]
    ∧ ((complUpdate (parseAnalysis c) (procUpdate u)).id = u.id
      ∧ (complUpdate (parseAnalysis c) (procUpdate u)).user_id = u.user_id
      ∧ (complUpdate (parseAnalysis c) (procUpdate u)).file_url = u.file_url
      ∧ (complUpdate (parseAnalysis c) (procUpdate u)).file_name = u.file_name
      ∧ (complUpdate (parseAnalysis c) (procUpdate u)).heatmap_url = u.heatmap_url
      ∧ (complUpdate (parseAnalysis c) (procUpdate u)).created_at = u.created_at)
    ∧ ((complUpdate (parseAnalysis c) (procUpdate u)).status = "completed"
      ∧ (complUpdate (parseAnalysis c) (procUpdate u)).diagnosis_result
          = some (parseAnalysis c).result
      ∧ (complUpdate (parseAnalysis c) (procUpdate u)).probability_score
          = some (parseAnalysis c).confidence
      ∧ (complUpdate (parseAnalysis c) (procUpdate u)).parasites_detected
          = some (parseAnalysis c).parasitesCount)
    ∧ insertedReports (analyze store (some uid) (.ok c)).2.1 = [mkReport u uid (parseAnalysis c)]
    ∧ (∀ c2 : String,
        (parseAnalysis c2).result = (parseAnalysis c).result →
        (parseAnalysis c2).confidence = (parseAnalysis c).confidence →
        (parseAnalysis c2).parasitesCount = (parseAnalysis c).parasitesCount →
        complUpdate (parseAnalysis c2) (procUpdate u)
          = complUpdate (parseAnalysis c) (procUpdate u)) := by
  refine ⟨?_, ⟨rfl, rfl, rfl, rfl, rfl, rfl⟩, ⟨rfl, rfl, rfl, rfl⟩, ?_, ?_⟩
  · simp [analyze, h, writeRecords]
  · simp [analyze, h, insertedReports]
  · intro c2 h1 h2 h3
    simp [complUpdate, h1, h2, h3]

/-- Witness for C10: the fresh sample analyzed with content "positive";
the immutable columns survive the completed write, and a second content
with the same verdict, confidence and count but different findings text
persists the identical sample record. -/
theorem c10_completed_write_frame_witness :
    (complUpdate (parseAnalysis "positive") (procUpdate sampleUpload)).file_url
        = sampleUpload.file_url
    ∧ writeRecords (analyze sampleStore (some "u1") (.ok "positive")).2.1
        = [procUpdate sampleUpload, complUpdate (parseAnalysis "positive") (procUpdate sampleUpload)]
    ∧ complUpdate (parseAnalysis "a positive case") (procUpdate sampleUpload)
        = complUpdate (parseAnalysis "positive") (procUpdate sampleUpload) := by
  have h := c10_completed_write_frame sampleStore "u1" sampleUpload "positive" rfl
  exact ⟨h.2.1.2.2.1, h.1, h.2.2.2.2 "a positive case" rfl rfl rfl⟩
